import Mathlib

/-!
Shallow embedding of the navigation core: the `DataLoader` component
(document resolution, revisions, canonical redirect, search-as-you-type)
and the `CollectionLink` sidebar component (drop resolver for reparent and
collection reorder, expansion controller).  External collaborators
(stores, routing helpers, lodash `deburr`, `fractional-index`) are passed
in as function parameters or as pre-computed results of their calls.
-/

namespace Outline

/-! ### Data model -/

structure Document where
  id : String
  url : String
  title : String
  updatedAt : String
  collectionId : String
  deriving DecidableEq

structure Revision where
  id : String
  deriving DecidableEq

structure NavigationNode where
  id : String
  deriving DecidableEq

/-- Capability set consumed read-only, as returned by policies.abilities. -/
structure Abilities where
  read : Bool
  update : Bool
  move : Bool
  deriving DecidableEq

/-- Error taxonomy: NotFoundError and OfflineError are the classified cases
of utils errors; everything else is an unclassified failure. -/
inductive Err where
  | notFound
  | offline
  | other (code : Nat)
  deriving DecidableEq

/-! ### CollectionLink: drop resolver and expansion controller -/

structure Collection where
  id : String
  permission : Option String
  index : String
  deriving DecidableEq

/-- The payload of a dragged document, as produced by the document drag source. -/
structure DragItem where
  id : String
  collectionId : String
  deriving DecidableEq

/-- The payload of a dragged collection (the drag item holds only the id). -/
structure CollectionDragItem where
  id : String
  deriving DecidableEq

/-- The observable outcome of the body-zone drop handler: do nothing, open
the reparent confirmation modal carrying the item, or call documents.move
with a document id, destination collection id and optional index. -/
inductive DropAction where
  | noop
  | openReparentModal (item : DragItem)
  | moveDocument (docId : String) (collectionId : String) (idx : Option Nat)
  deriving DecidableEq

/-- Body-zone drop handler of CollectionLink (drop to re-parent): guards on
monitor.didDrop and a missing collection, no-ops on a drop onto the
document's own collection, and opens the confirmation modal exactly when
the previous collection is known, its permission is null and differs from
the target's; otherwise moves immediately with no index (append). -/
def reparentDrop (didDrop : Bool) (collection : Option Collection)
    (item : DragItem) (prevCollection : Option Collection) : DropAction :=
  match didDrop, collection with
  | true, _ => .noop
  | false, none => .noop
  | false, some collection =>
    if collection.id == item.collectionId then .noop
    else
      match prevCollection with
      | some prev =>
        if prev.permission == none && prev.permission != collection.permission then
          .openReparentModal item
        else .moveDocument item.id collection.id none
      | none => .moveDocument item.id collection.id none

/-- Top-edge drop handler (drop to reorder): moves the document to index 0. -/
def dropToReorder (collection : Option Collection) (item : DragItem) : DropAction :=
  match collection with
  | none => .noop
  | some collection => .moveDocument item.id collection.id (some 0)

/-- Modelled from the spec: the confirmation dialog opened for a
permission-scope-changing drop.  The DocumentReparent scene is not under
src; per the spec it carries the pending drop item and the destination
collection, performs the move only on explicit confirmation, and discards
the pending move on cancellation. -/
def confirmReparent (pending : DragItem) (destination : Collection)
    (confirmed : Bool) : Option (String × String) :=
  if confirmed then some (pending.id, destination.id) else none

/-- belowCollectionIndex: the below neighbor's index, or null when absent. -/
def belowCollectionIndexOf (belowCollection : Option Collection) : Option String :=
  match belowCollection with
  | some b => some b.index
  | none => none

/-- The arguments of the collections.move call issued by the
collection-reorder drop handler. -/
structure CollectionMoveCall where
  id : String
  newIndex : String
  deriving DecidableEq

/-- canDrop of the collection-reorder drop zone. -/
def dropToReorderCollectionCanDrop (collection : Collection)
    (belowCollection : Option Collection) (item : CollectionDragItem) : Bool :=
  collection.id != item.id &&
    (match belowCollection with
     | none => true
     | some b => item.id != b.id)

/-- Drop handler of the collection-reorder zone: calls collections.move with
the dragged id and a key allocated by fractional-index between the target
collection's index and the below neighbor's index. -/
def dropToReorderCollectionDrop (fractionalIndex : String → Option String → String)
    (collection : Collection) (belowCollection : Option Collection)
    (item : CollectionDragItem) : CollectionMoveCall :=
  { id := item.id,
    newIndex := fractionalIndex collection.index (belowCollectionIndexOf belowCollection) }

/-- The comparison collection.id === ui.activeCollectionId (undefined compares false). -/
def collectionIsActive (collectionId : String) (activeCollectionId : Option String) : Bool :=
  match activeCollectionId with
  | some a => collectionId == a
  | none => false

/-- Initializer of the expanded useState hook. -/
def initialExpanded (collectionId : String) (activeCollectionId : Option String) : Bool :=
  collectionIsActive collectionId activeCollectionId

/-- The expansion effect: untouched in the starred view, forced false while
any collection is being dragged, otherwise derived from the active id. -/
def expandedEffect (search : String) (isDraggingAnyCollection : Bool)
    (collectionId : String) (activeCollectionId : Option String)
    (expanded : Bool) : Bool :=
  if search == "?starred" then expanded
  else if isDraggingAnyCollection then false
  else collectionIsActive collectionId activeCollectionId

/-! ### DataLoader: resolution loader state machine

loadDocument is an async method; its suspension point is the
documents.fetch await (and, on a specific revision, the revisions.fetch
await inside loadRevision).  We split it into the synchronous prefix
`loadDocumentStart` (the optimistic active-document set before the await)
and the continuation `loadDocumentCont`, which receives the fetch results
and runs the rest of the method to completion. -/

inductive HistoryOp where
  | push (url : String)
  | replace (url : String)
  deriving DecidableEq

structure MatchParams where
  shareId : Option String
  documentSlug : String
  revisionId : Option String
  deriving DecidableEq

structure FetchResponse where
  document : Document
  sharedTree : Option NavigationNode
  deriving DecidableEq

/-- The component instance fields together with the visible collaborator
state it writes: ui.setActiveDocument, the process-wide sharedTreeCache and
the history operations issued.  The mounted flag is framework state: React
clears it on unmount; the component itself never consults it. -/
structure LoaderState where
  mounted : Bool
  document : Option Document
  revision : Option Revision
  error : Option Err
  activeDocument : Option Document
  sharedTree : Option NavigationNode
  sharedTreeCache : List (String × Option NavigationNode)
  history : List HistoryOp
  deriving DecidableEq

/-- Props and collaborators read by loadDocument after the fetch resolves. -/
structure Env where
  abilities : String → Abilities
  isEditing : Bool
  pathname : String
  matchUrl : String
  updateDocumentUrl : String → Document → String

/-- sharedTreeCache[id] = tree, as association-list update. -/
def cacheStore (id : String) (tree : Option NavigationNode)
    (cache : List (String × Option NavigationNode)) : List (String × Option NavigationNode) :=
  (id, tree) :: cache.filter (fun kv => kv.fst != id)

/-- Unmounting the view: React marks the instance unmounted; the component
defines no componentWillUnmount, so nothing else happens. -/
def unmountView (s : LoaderState) : LoaderState := { s with mounted := false }

/-- The synchronous prefix of loadDocument: if a document is already held,
optimistically set it active in the sidebar, then suspend on the fetch. -/
def loadDocumentStart (s : LoaderState) : LoaderState :=
  match s.document with
  | some d => { s with activeDocument := some d }
  | none => s

/-- The regex test pathname.match of the move-suffix pattern: true iff the
pathname ends with the four characters of the word move. -/
def isMovePath (pathname : String) : Bool :=
  List.isSuffixOf "move".data pathname.data

/-- revisionId && revisionId !== "latest". -/
def wantsSpecificRevision (p : MatchParams) : Bool :=
  match p.revisionId with
  | none => false
  | some r => r != "latest"

/-- Lines after the try block: abilities lookup, active-document set,
editing-mode downgrade via history.push, and the canonical redirect via
history.replace gated on !revisionId && !isMove && !shareId. -/
def afterFetchSuccess (env : Env) (p : MatchParams) (s : LoaderState) : LoaderState :=
  match s.document with
  | none => s
  | some document =>
    let can := env.abilities document.id
    let s1 := { s with activeDocument := some document }
    if !can.update && env.isEditing then
      { s1 with history := s1.history ++ [HistoryOp.push document.url] }
    else
      let isMove := isMovePath env.pathname
      let canRedirect := p.revisionId == none && !isMove && p.shareId == none
      if canRedirect then
        let canonicalUrl := env.updateDocumentUrl env.matchUrl document
        if env.pathname != canonicalUrl then
          { s1 with history := s1.history ++ [HistoryOp.replace canonicalUrl] }
        else s1
      else s1

/-- The continuation of loadDocument after the documents.fetch await: on
rejection the catch stores the error; on success the shared tree, document
and cache are written, the revision is fetched (specific id) or reset
(absent or the latest sentinel), and the post-try steps run.  A rejection
of the revision fetch is caught by the same catch, after the document
writes already happened. -/
def loadDocumentCont (env : Env) (p : MatchParams)
    (fetchResult : Except Err FetchResponse)
    (revisionFetch : Except Err Revision)
    (s : LoaderState) : LoaderState :=
  match fetchResult with
  | .error e => { s with error := some e }
  | .ok response =>
    let s1 := { s with
      sharedTree := response.sharedTree,
      document := some response.document,
      sharedTreeCache := cacheStore response.document.id response.sharedTree s.sharedTreeCache }
    if wantsSpecificRevision p then
      match revisionFetch with
      | .error e => { s1 with error := some e }
      | .ok rev => afterFetchSuccess env p { s1 with revision := some rev }
    else
      afterFetchSuccess env p { s1 with revision := none }

/-- Two overlapping loadDocument invocations: the first is issued, the
second is issued before the first completes, the second's fetch completes,
and then the first's fetch completes last. -/
def supersededRun (envA envB : Env) (pA pB : MatchParams)
    (firstFetch secondFetch : Except Err FetchResponse)
    (firstRev secondRev : Except Err Revision) (s : LoaderState) : LoaderState :=
  loadDocumentCont envA pA firstFetch firstRev
    (loadDocumentCont envB pB secondFetch secondRev
      (loadDocumentStart (loadDocumentStart s)))

/-- The catch handler attached to the floating shares.fetch promise:
NotFound is swallowed, anything else is rethrown. -/
def shareFetchCatch (err : Err) : Except Err Unit :=
  match err with
  | Err.notFound => .ok ()
  | _ => .error err

/-! ### DataLoader: search-as-you-type helper -/

structure SearchItem where
  title : String
  subtitle : String
  url : String
  deriving DecidableEq

/-- The result record built for one document (formatDistanceToNow is the
external date formatter applied to the parsed updatedAt). -/
def toSearchItem (formatDistanceToNow : String → String) (document : Document) : SearchItem :=
  { title := document.title,
    subtitle := "Updated " ++ formatDistanceToNow document.updatedAt,
    url := document.url }

/-- The sortBy iteratee: -1 when the deburred lowercased title starts with
the deburred lowercased term, else 1. -/
def searchSortKey (deburr : String → String) (term : String) (item : SearchItem) : Int :=
  if (deburr item.title).toLower.startsWith ((deburr term).toLower) then -1 else 1

/-- Stable insertion of one element by ascending key: the new element, which
stands earlier in the input than everything already placed, goes before the
first element of equal or larger key. -/
def orderedInsert {α : Type} (key : α → Int) (x : α) : List α → List α
  | [] => [x]
  | y :: ys => if key x ≤ key y then x :: y :: ys else y :: orderedInsert key x ys

/-- Stable ascending sort by an integer key, the semantics of lodash sortBy
with a single iteratee. -/
def sortByKey {α : Type} (key : α → Int) : List α → List α
  | [] => []
  | x :: xs => orderedInsert key x (sortByKey key xs)

/-- The ranked mapping of the searchTitles results in onSearchLink. -/
def rankSearchResults (deburr : String → String) (formatDistanceToNow : String → String)
    (term : String) (results : List Document) : List SearchItem :=
  sortByKey (searchSortKey deburr term) (results.map (toSearchItem formatDistanceToNow))

/-- The default search branch: await documents.searchTitles, then map and
rank; a rejection of the search propagates. -/
def generalTitleSearch (deburr : String → String) (formatDistanceToNow : String → String)
    (term : String) (searchTitlesResult : Except Err (List Document)) :
    Except Err (List SearchItem) :=
  match searchTitlesResult with
  | .error e => .error e
  | .ok results => .ok (rankSearchResults deburr formatDistanceToNow term results)

/-- onSearchLink: for a term that looks like an internal url, try the exact
fetch first; on success return that single result; a NotFound rejection
falls through to the general title search; any other rejection is
rethrown.  Non-url terms go straight to the general search. -/
def onSearchLink (deburr : String → String) (formatDistanceToNow : String → String)
    (isInternal : Bool) (exactFetch : Except Err Document)
    (searchTitlesResult : Except Err (List Document)) (term : String) :
    Except Err (List SearchItem) :=
  if isInternal then
    match exactFetch with
    | .ok document => .ok [toSearchItem formatDistanceToNow document]
    | .error e =>
      match e with
      | Err.notFound => generalTitleSearch deburr formatDistanceToNow term searchTitlesResult
      | _ => .error e
  else generalTitleSearch deburr formatDistanceToNow term searchTitlesResult

/-! ### History-operation projections and claim-side characterizations -/

/-- The targets of the push operations in a history log, in order. -/
def pushTargets (l : List HistoryOp) : List String :=
  l.filterMap (fun op => match op with | .push u => some u | .replace _ => none)

/-- The targets of the replace operations in a history log, in order. -/
def replaceTargets (l : List HistoryOp) : List String :=
  l.filterMap (fun op => match op with | .replace u => some u | .push _ => none)

/-- Whether the continuation reaches the code after the try block: the
document fetch succeeded and, when a specific revision was requested, the
revision fetch succeeded too. -/
def reachesPostFetch (p : MatchParams) (revisionFetch : Except Err Revision) : Bool :=
  if wantsSpecificRevision p then
    match revisionFetch with
    | .ok _ => true
    | .error _ => false
  else true

/-- The pushes one continuation run appends: exactly the editing-mode
downgrade push of document.url, and only when the post-try code runs. -/
def downgradePushTargets (env : Env) (p : MatchParams)
    (fetchResult : Except Err FetchResponse) (revisionFetch : Except Err Revision) :
    List String :=
  match fetchResult with
  | .error _ => []
  | .ok response =>
    if reachesPostFetch p revisionFetch
        && (!(env.abilities response.document.id).update && env.isEditing) then
      [response.document.url]
    else []

/-- The replaces one continuation run appends: exactly one replace to the
canonical address, and only when the post-try code runs, the downgrade does
not fire, no revision parameter at all is present, the path is not a move
path, there is no share id, and the canonical address differs. -/
def canonicalReplaceTargets (env : Env) (p : MatchParams)
    (fetchResult : Except Err FetchResponse) (revisionFetch : Except Err Revision) :
    List String :=
  match fetchResult with
  | .error _ => []
  | .ok response =>
    if reachesPostFetch p revisionFetch
        && !(!(env.abilities response.document.id).update && env.isEditing)
        && (p.revisionId == none && !(isMovePath env.pathname) && p.shareId == none)
        && env.pathname != env.updateDocumentUrl env.matchUrl response.document then
      [env.updateDocumentUrl env.matchUrl response.document]
    else []

/-! ### Concrete sample values used by witnesses and counterexamples -/

def docA : Document :=
  { id := "doc-a", url := "/doc/doc-a", title := "A", updatedAt := "t1", collectionId := "c1" }

def docB : Document :=
  { id := "doc-b", url := "/doc/doc-b", title := "B", updatedAt := "t2", collectionId := "c1" }

def respA : FetchResponse := { document := docA, sharedTree := none }

def respB : FetchResponse := { document := docB, sharedTree := none }

def rev0 : Revision := { id := "r0" }

def paramsFor (slug : String) : MatchParams :=
  { shareId := none, documentSlug := slug, revisionId := none }

def allAbilities : Abilities := { read := true, update := true, move := true }

/-- A reading environment whose current pathname differs from every
canonical document url (canonical is the document's own url). -/
def sampleEnv : Env :=
  { abilities := fun _ => allAbilities,
    isEditing := false,
    pathname := "/doc/old-slug",
    matchUrl := "/doc/old-slug",
    updateDocumentUrl := fun _ d => d.url }

/-- An editing environment whose capability set denies update. -/
def editDeniedEnv : Env :=
  { abilities := fun _ => { read := true, update := false, move := true },
    isEditing := true,
    pathname := "/doc/old-slug",
    matchUrl := "/doc/old-slug",
    updateDocumentUrl := fun _ d => d.url }

def initialLoaderState : LoaderState :=
  { mounted := true, document := none, revision := none, error := none,
    activeDocument := none, sharedTree := none, sharedTreeCache := [], history := [] }

def targetCollection : Collection := { id := "c2", permission := none, index := "b" }

def sourceCollection : Collection := { id := "c1", permission := some "read_write", index := "a" }

def draggedDoc : DragItem := { id := "d1", collectionId := "c1" }

/-! ### Helper lemmas -/

theorem pushTargets_append (a b : List HistoryOp) :
    pushTargets (a ++ b) = pushTargets a ++ pushTargets b := by
  simp [pushTargets, List.filterMap_append]

theorem replaceTargets_append (a b : List HistoryOp) :
    replaceTargets (a ++ b) = replaceTargets a ++ replaceTargets b := by
  simp [replaceTargets, List.filterMap_append]

theorem collectionIsActive_iff (collectionId : String) (activeCollectionId : Option String) :
    collectionIsActive collectionId activeCollectionId = true ↔
      activeCollectionId = some collectionId := by
  cases activeCollectionId with
  | none => simp [collectionIsActive]
  | some a =>
    simp only [collectionIsActive, beq_iff_eq, Option.some.injEq]
    exact eq_comm

theorem afterFetchSuccess_spec (env : Env) (p : MatchParams) (s : LoaderState)
    (document : Document) (h : s.document = some document) :
    afterFetchSuccess env p s =
      (if !(env.abilities document.id).update && env.isEditing then
        { s with activeDocument := some document,
                 history := s.history ++ [HistoryOp.push document.url] }
      else if (p.revisionId == none && !(isMovePath env.pathname) && p.shareId == none)
              && env.pathname != env.updateDocumentUrl env.matchUrl document then
        { s with activeDocument := some document,
                 history := s.history ++
                   [HistoryOp.replace (env.updateDocumentUrl env.matchUrl document)] }
      else { s with activeDocument := some document }) := by
  rw [afterFetchSuccess.eq_def, h]
  dsimp only
  split_ifs with h1 h2 h3 <;> simp_all

theorem orderedInsert_front {α : Type} (key : α → Int) (x : α) (l : List α)
    (h : ∀ y ∈ l, key x ≤ key y) : orderedInsert key x l = x :: l := by
  cases l with
  | nil => rfl
  | cons y ys =>
    rw [orderedInsert, if_pos (h y (List.mem_cons_self y ys))]

theorem orderedInsert_skip {α : Type} (key : α → Int) (x : α) (A B : List α)
    (hx : key x = 1) (hA : ∀ a ∈ A, key a = -1) (hB : ∀ b ∈ B, key b = 1) :
    orderedInsert key x (A ++ B) = A ++ x :: B := by
  induction A with
  | nil =>
    cases B with
    | nil => rfl
    | cons b bs =>
      rw [List.nil_append, orderedInsert,
        if_pos (by rw [hx, hB b (List.mem_cons_self b bs)])]
      rfl
  | cons a as ih =>
    rw [List.cons_append, orderedInsert,
      if_neg (by rw [hx, hA a (List.mem_cons_self a as)]; decide),
      ih (fun c hc => hA c (List.mem_cons_of_mem a hc))]
    rfl

theorem sortByKey_two_valued {α : Type} (key : α → Int) (p : α → Bool)
    (hk : ∀ x, key x = if p x then -1 else 1) (l : List α) :
    sortByKey key l = l.filter p ++ l.filter (fun x => !(p x)) := by
  induction l with
  | nil => rfl
  | cons x xs ih =>
    have hA : ∀ a ∈ xs.filter p, key a = -1 := by
      intro a ha
      have := List.of_mem_filter ha
      rw [hk a, this]
      decide
    have hB : ∀ b ∈ xs.filter (fun x => !(p x)), key b = 1 := by
      intro b hb
      have hpb := List.of_mem_filter hb
      rw [hk b]
      cases hpb2 : p b with
      | false => rfl
      | true => rw [hpb2] at hpb; exact absurd hpb (by decide)
    rw [sortByKey, ih]
    cases hpx : p x with
    | true =>
      have hx : key x = -1 := by rw [hk x, hpx]; rfl
      rw [orderedInsert_front key x _ (by
        intro y hy
        rw [hx]
        rcases List.mem_append.mp hy with hyA | hyB
        · rw [hA y hyA]
        · rw [hB y hyB]; decide)]
      simp [List.filter, hpx]
    | false =>
      have hx : key x = 1 := by rw [hk x, hpx]; rfl
      rw [orderedInsert_skip key x _ _ hx hA hB]
      simp [List.filter, hpx]

/-! ### Claim theorems -/

/-- C6: each collection's expanded flag is initialized to true iff the
collection is the active one; afterwards, in the filtered starred view the
effect leaves expansion untouched for both the dragging and the
active-collection transition, otherwise a drag in progress forces the flag
to false, and with no drag in progress the flag becomes the comparison
with the active collection id. -/
theorem expansion_controller_transitions
    (search : String) (dragging : Bool) (cid : String)
    (active : Option String) (e : Bool) :
    (initialExpanded cid active = true ↔ active = some cid)
    ∧ (search = "?starred" → expandedEffect search dragging cid active e = e)
    ∧ (search ≠ "?starred" → dragging = true →
        expandedEffect search dragging cid active e = false)
    ∧ (search ≠ "?starred" → dragging = false →
        (expandedEffect search dragging cid active e = true ↔ active = some cid)) := by
  refine ⟨?_, ?_, ?_, ?_⟩
  · rw [initialExpanded, collectionIsActive_iff]
  · intro h
    simp [expandedEffect, h]
  · intro h hd
    have hs : (search == "?starred") = false := by
      simpa [beq_iff_eq] using h
    simp [expandedEffect, hs, hd]
  · intro h hd
    have hs : (search == "?starred") = false := by
      simpa [beq_iff_eq] using h
    rw [expandedEffect]
    simp only [hs, hd]
    simpa using collectionIsActive_iff cid active

/-- C6 witness: concrete instances of the three transition conjuncts. -/
theorem expansion_controller_transitions_witness :
    expandedEffect "?starred" true "c1" none true = true
    ∧ expandedEffect "" true "c1" (some "c1") true = false
    ∧ expandedEffect "" false "c1" (some "c1") false = true := by
  refine ⟨?_, ?_, ?_⟩
  · exact (expansion_controller_transitions "?starred" true "c1" none true).2.1 rfl
  · exact (expansion_controller_transitions "" true "c1" (some "c1") true).2.2.1
      (by decide) rfl
  · exact ((expansion_controller_transitions "" false "c1" (some "c1") false).2.2.2
      (by decide) rfl).mpr rfl

/-- C7: a document dropped onto its own collection's body zone yields no
action; a collection drop is accepted iff the dragged id differs from the
target id and from the below neighbor's id; and every accepted collection
drop calls collections.move with the dragged id and a key allocated between
the target collection's index and the below neighbor's index. -/
theorem drop_resolver_guards
    (fractionalIndex : String → Option String → String)
    (coll : Collection) (below : Option Collection)
    (item : CollectionDragItem) (docItem : DragItem) (prev : Option Collection) :
    (docItem.collectionId = coll.id →
      reparentDrop false (some coll) docItem prev = DropAction.noop)
    ∧ (dropToReorderCollectionCanDrop coll below item = true ↔
        (item.id ≠ coll.id ∧ ∀ b, below = some b → item.id ≠ b.id))
    ∧ (dropToReorderCollectionCanDrop coll below item = true →
        dropToReorderCollectionDrop fractionalIndex coll below item =
          { id := item.id,
            newIndex := fractionalIndex coll.index (belowCollectionIndexOf below) }) := by
  refine ⟨?_, ?_, fun _ => rfl⟩
  · intro h
    simp [reparentDrop, h]
  · cases below with
    | none =>
      simp [dropToReorderCollectionCanDrop, bne_iff_ne, ne_comm]
    | some b =>
      simp only [dropToReorderCollectionCanDrop, Bool.and_eq_true, bne_iff_ne]
      constructor
      · rintro ⟨h1, h2⟩
        exact ⟨fun h => h1 h.symm, fun c hc => by
          injection hc with hc; rw [← hc]; exact h2⟩
      · rintro ⟨h1, h2⟩
        exact ⟨fun h => h1 h.symm, h2 b rfl⟩

/-- C7 witness: the three conjuncts applied at concrete inputs: a document
dropped onto its own collection is a no-op, a self-drop of a collection is
rejected, and an accepted drop allocates between the target and its below
neighbor. -/
theorem drop_resolver_guards_witness :
    reparentDrop false (some targetCollection)
      { id := "d9", collectionId := "c2" } none = DropAction.noop
    ∧ dropToReorderCollectionCanDrop targetCollection none { id := "c2" } ≠ true
    ∧ dropToReorderCollectionDrop (fun a _ => a ++ "x") targetCollection
        (some sourceCollection) { id := "c9" } =
        { id := "c9", newIndex := "bx" } := by
  refine ⟨?_, ?_, ?_⟩
  · exact (drop_resolver_guards (fun a _ => a) targetCollection none { id := "c2" }
      { id := "d9", collectionId := "c2" } none).1 rfl
  · intro h
    have := (drop_resolver_guards (fun a _ => a) targetCollection none { id := "c2" }
      { id := "d9", collectionId := "c2" } none).2.1.mp h
    exact this.1 rfl
  · exact (drop_resolver_guards (fun a _ => a ++ "x") targetCollection
      (some sourceCollection) { id := "c9" }
      { id := "d9", collectionId := "c2" } none).2.2 (by decide)

/-- C2 counterexample: a body-zone drop whose source collection's scope
(read_write) differs from the target's (null) and is not the inherit/none
scope is, per the claim, supposed to surface the confirmation; the code
moves the document immediately instead. -/
theorem reparent_confirmation_counterexample :
    sourceCollection.permission ≠ targetCollection.permission
    ∧ sourceCollection.permission ≠ none
    ∧ draggedDoc.collectionId = sourceCollection.id
    ∧ draggedDoc.collectionId ≠ targetCollection.id
    ∧ reparentDrop false (some targetCollection) draggedDoc (some sourceCollection) =
        DropAction.moveDocument "d1" "c2" none := by
  refine ⟨by decide, by decide, rfl, by decide, by decide⟩

/-- C2 amended: for a body-zone drop onto a different collection, the code
surfaces the confirmation (carrying the pending item, with the destination
collection; confirm performs the move, cancel discards it) exactly when the
source collection is known, its permission scope is the null scope and the
target's differs from it; in every other case the document is moved
immediately into the target collection with no index (append). -/
theorem reparent_confirmation_amended
    (target : Collection) (item : DragItem) (prev : Collection)
    (hdiff : item.collectionId ≠ target.id) :
    (prev.permission = none → target.permission ≠ none →
      reparentDrop false (some target) item (some prev) = DropAction.openReparentModal item
      ∧ confirmReparent item target true = some (item.id, target.id)
      ∧ confirmReparent item target false = none)
    ∧ ((prev.permission ≠ none ∨ target.permission = none) →
      reparentDrop false (some target) item (some prev) =
        DropAction.moveDocument item.id target.id none) := by
  have hid : (target.id == item.collectionId) = false := by
    simpa [beq_iff_eq] using fun h => hdiff h.symm
  constructor
  · intro hp ht
    refine ⟨?_, rfl, rfl⟩
    have ht2 : (prev.permission != target.permission) = true := by
      simp [bne_iff_ne, hp]
      exact fun h => ht h.symm
    simp [reparentDrop, hid, hp, ht2]
    exact fun h => ht h.symm
  · intro h
    cases h with
    | inl hne =>
      have hp : (prev.permission == none) = false := by
        simpa [beq_iff_eq] using hne
      simp [reparentDrop, hid, hp]
    | inr ht =>
      rcases hp : prev.permission with _ | v
      · have : (prev.permission != target.permission) = false := by
          simp [bne_iff_ne, hp, ht]
        simp [reparentDrop, hid, hp, ht]
      · simp [reparentDrop, hid, hp]

/-- C2 amended witness: a drop out of a null-scoped collection into a
scoped one surfaces the confirmation, and a drop between two non-null
scopes moves immediately. -/
theorem reparent_confirmation_amended_witness :
    (reparentDrop false (some { id := "c2", permission := some "read", index := "b" })
        { id := "d1", collectionId := "c1" }
        (some { id := "c1", permission := none, index := "a" }) =
      DropAction.openReparentModal { id := "d1", collectionId := "c1" })
    ∧ (reparentDrop false (some { id := "c2", permission := some "read", index := "b" })
        { id := "d1", collectionId := "c1" }
        (some { id := "c1", permission := some "read_write", index := "a" }) =
      DropAction.moveDocument "d1" "c2" none) := by
  constructor
  · exact ((reparent_confirmation_amended
      { id := "c2", permission := some "read", index := "b" }
      { id := "d1", collectionId := "c1" }
      { id := "c1", permission := none, index := "a" }
      (by decide)).1 rfl (by decide)).1
  · exact (reparent_confirmation_amended
      { id := "c2", permission := some "read", index := "b" }
      { id := "d1", collectionId := "c1" }
      { id := "c1", permission := some "read_write", index := "a" }
      (by decide)).2 (Or.inl (by decide))

/-- C8: for every term and every result list returned by searchTitles, the
ranking in onSearchLink puts all entries whose deburred, lowercased title
starts with the normalized term before all entries whose title does not,
and each of the two groups keeps the original relative order. -/
theorem search_ranking_stable_partition
    (deburr : String → String) (formatDistanceToNow : String → String)
    (term : String) (results : List Document) :
    rankSearchResults deburr formatDistanceToNow term results =
      (results.map (toSearchItem formatDistanceToNow)).filter
        (fun item => (deburr item.title).toLower.startsWith ((deburr term).toLower))
      ++ (results.map (toSearchItem formatDistanceToNow)).filter
        (fun item => !((deburr item.title).toLower.startsWith ((deburr term).toLower))) := by
  rw [rankSearchResults]
  exact sortByKey_two_valued (searchSortKey deburr term)
    (fun item => (deburr item.title).toLower.startsWith ((deburr term).toLower))
    (fun item => by rw [searchSortKey]) (results.map (toSearchItem formatDistanceToNow))

/-- C9: in onSearchLink a NotFound rejection of the exact internal-address
lookup is swallowed and the run falls through to the general title search,
while any other rejection propagates; in the share-info catch handler a
NotFound rejection is swallowed and any other rejection is rethrown. -/
theorem notfound_swallowing_policy
    (deburr : String → String) (formatDistanceToNow : String → String)
    (term : String) (searchTitlesResult : Except Err (List Document)) (e : Err) :
    (onSearchLink deburr formatDistanceToNow true (.error Err.notFound)
        searchTitlesResult term =
      generalTitleSearch deburr formatDistanceToNow term searchTitlesResult)
    ∧ (e ≠ Err.notFound →
      onSearchLink deburr formatDistanceToNow true (.error e) searchTitlesResult term =
        .error e)
    ∧ shareFetchCatch Err.notFound = .ok ()
    ∧ (e ≠ Err.notFound → shareFetchCatch e = .error e) := by
  refine ⟨rfl, ?_, rfl, ?_⟩
  · intro h
    cases e with
    | notFound => exact absurd rfl h
    | offline => rfl
    | other c => rfl
  · intro h
    cases e with
    | notFound => exact absurd rfl h
    | offline => rfl
    | other c => rfl

/-- C9 witness: the policy applied with the Offline failure as the
non-NotFound rejection. -/
theorem notfound_swallowing_policy_witness :
    onSearchLink (fun s => s) (fun s => s) true (.error Err.offline) (.ok []) "x" =
      .error Err.offline
    ∧ shareFetchCatch Err.offline = .error Err.offline := by
  constructor
  · exact (notfound_swallowing_policy (fun s => s) (fun s => s) "x"
      (.ok []) Err.offline).2.1 (by decide)
  · exact (notfound_swallowing_policy (fun s => s) (fun s => s) "x"
      (.ok []) Err.offline).2.2.2 (by decide)

/-- C10: every successful resolution whose request carries no revision id,
or carries the latest sentinel, resets the resolved revision to none. -/
theorem revision_reset_on_nonrevision_load
    (env : Env) (p : MatchParams) (response : FetchResponse)
    (revisionFetch : Except Err Revision) (s : LoaderState)
    (h : p.revisionId = none ∨ p.revisionId = some "latest") :
    (loadDocumentCont env p (.ok response) revisionFetch s).revision = none := by
  have hw : wantsSpecificRevision p = false := by
    rcases h with h | h <;> simp [wantsSpecificRevision, h]
  simp only [loadDocumentCont, hw, Bool.false_eq_true, if_false]
  rw [afterFetchSuccess_spec _ _ _ response.document rfl]
  split_ifs <;> rfl

/-- C10 witness: a stale revision held in state is cleared by a
latest-sentinel resolution. -/
theorem revision_reset_on_nonrevision_load_witness :
    (loadDocumentCont sampleEnv
      { shareId := none, documentSlug := "doc-a", revisionId := some "latest" }
      (.ok respA) (.ok rev0)
      { initialLoaderState with revision := some rev0 }).revision = none :=
  revision_reset_on_nonrevision_load sampleEnv
    { shareId := none, documentSlug := "doc-a", revisionId := some "latest" }
    respA (.ok rev0) { initialLoaderState with revision := some rev0 }
    (Or.inr rfl)

theorem loadDocumentCont_ok_document (env : Env) (p : MatchParams)
    (response : FetchResponse) (revisionFetch : Except Err Revision) (s : LoaderState) :
    (loadDocumentCont env p (.ok response) revisionFetch s).document =
      some response.document := by
  simp only [loadDocumentCont]
  cases hw : wantsSpecificRevision p with
  | false =>
    simp only [Bool.false_eq_true, if_false]
    rw [afterFetchSuccess_spec _ _ _ response.document rfl]
    split_ifs <;> rfl
  | true =>
    simp only [if_true]
    cases revisionFetch with
    | error e => rfl
    | ok rev =>
      dsimp only
      rw [afterFetchSuccess_spec _ _ _ response.document rfl]
      split_ifs <;> rfl

theorem loadDocumentCont_ok_activeDocument (env : Env) (p : MatchParams)
    (response : FetchResponse) (revisionFetch : Except Err Revision) (s : LoaderState)
    (h : reachesPostFetch p revisionFetch = true) :
    (loadDocumentCont env p (.ok response) revisionFetch s).activeDocument =
      some response.document := by
  simp only [loadDocumentCont]
  cases hw : wantsSpecificRevision p with
  | false =>
    simp only [Bool.false_eq_true, if_false]
    rw [afterFetchSuccess_spec _ _ _ response.document rfl]
    split_ifs <;> rfl
  | true =>
    simp only [if_true]
    cases revisionFetch with
    | error e => simp [reachesPostFetch, hw] at h
    | ok rev =>
      dsimp only
      rw [afterFetchSuccess_spec _ _ _ response.document rfl]
      split_ifs <;> rfl

/-- C4 counterexample: the editing-mode downgrade issues a push of the
canonical read address, so the core does invoke the push operation. -/
theorem push_used_counterexample :
    pushTargets ((loadDocumentCont editDeniedEnv (paramsFor "doc-a")
        (.ok respA) (.ok rev0) initialLoaderState).history) = ["/doc/doc-a"] := rfl

/-- C4 amended: a continuation run appends a push exactly when the post-try
code runs, edit mode is requested and update is denied, and that push
targets the resolved document's own url (the canonical read address);
every other address change the continuation appends is a replacement. -/
theorem push_only_in_edit_downgrade (env : Env) (p : MatchParams)
    (fetchResult : Except Err FetchResponse) (revisionFetch : Except Err Revision)
    (s : LoaderState) :
    pushTargets (loadDocumentCont env p fetchResult revisionFetch s).history =
      pushTargets s.history ++ downgradePushTargets env p fetchResult revisionFetch := by
  cases fetchResult with
  | error e => simp [loadDocumentCont, downgradePushTargets]
  | ok response =>
    simp only [loadDocumentCont, downgradePushTargets]
    cases hw : wantsSpecificRevision p with
    | true =>
      simp only [if_true]
      cases revisionFetch with
      | error e => simp [reachesPostFetch, hw]
      | ok rev =>
        have hr : reachesPostFetch p (.ok rev) = true := by
          simp [reachesPostFetch, hw]
        dsimp only
        rw [afterFetchSuccess_spec _ _ _ response.document rfl]
        split_ifs with h1 h2 <;>
          simp_all [pushTargets_append, pushTargets, hr]
    | false =>
      have hr : reachesPostFetch p revisionFetch = true := by
        simp [reachesPostFetch, hw]
      simp only [Bool.false_eq_true, if_false]
      rw [afterFetchSuccess_spec _ _ _ response.document rfl]
      split_ifs with h1 h2 <;>
        simp_all [pushTargets_append, pushTargets, hr]

/-- C3 counterexample: two resolutions that per the claim must issue
exactly one replacement, yet issue none: a request carrying the latest
sentinel (so not pinned to a specific revision, not a move, no share
context, canonical address differing), and a read-address request during
an editing-mode downgrade. -/
theorem canonical_redirect_counterexample :
    sampleEnv.pathname ≠ sampleEnv.updateDocumentUrl sampleEnv.matchUrl docA
    ∧ isMovePath sampleEnv.pathname = false
    ∧ replaceTargets ((loadDocumentCont sampleEnv
        { shareId := none, documentSlug := "doc-a", revisionId := some "latest" }
        (.ok respA) (.ok rev0) initialLoaderState).history) = []
    ∧ editDeniedEnv.pathname ≠ editDeniedEnv.updateDocumentUrl editDeniedEnv.matchUrl docA
    ∧ replaceTargets ((loadDocumentCont editDeniedEnv (paramsFor "doc-a")
        (.ok respA) (.ok rev0) initialLoaderState).history) = [] := by
  exact ⟨by decide, by decide, by decide, by decide, by decide⟩

/-- C3 amended: a continuation run appends exactly one replacement, to the
canonical address, when the post-try code runs, the editing-mode downgrade
does not fire, the request carries no revision parameter at all, is not a
move path, has no share context, and the canonical address differs from
the current address; under every other condition it appends none. -/
theorem canonical_redirect_exactly_once (env : Env) (p : MatchParams)
    (fetchResult : Except Err FetchResponse) (revisionFetch : Except Err Revision)
    (s : LoaderState) :
    replaceTargets (loadDocumentCont env p fetchResult revisionFetch s).history =
      replaceTargets s.history ++ canonicalReplaceTargets env p fetchResult revisionFetch := by
  cases fetchResult with
  | error e => simp [loadDocumentCont, canonicalReplaceTargets]
  | ok response =>
    simp only [loadDocumentCont, canonicalReplaceTargets]
    cases hw : wantsSpecificRevision p with
    | true =>
      simp only [if_true]
      cases revisionFetch with
      | error e => simp [reachesPostFetch, hw]
      | ok rev =>
        have hr : reachesPostFetch p (.ok rev) = true := by
          simp [reachesPostFetch, hw]
        dsimp only
        rw [afterFetchSuccess_spec _ _ _ response.document rfl]
        split_ifs with h1 h2 <;>
          simp_all [replaceTargets_append, replaceTargets, hr]
    | false =>
      have hr : reachesPostFetch p revisionFetch = true := by
        simp [reachesPostFetch, hw]
      simp only [Bool.false_eq_true, if_false]
      rw [afterFetchSuccess_spec _ _ _ response.document rfl]
      split_ifs with h1 h2 <;>
        simp_all [replaceTargets_append, replaceTargets, hr]

/-- C1 counterexample: resolve doc-a, then resolve doc-b before the first
completes, then complete doc-b's fetch, then complete doc-a's fetch last;
the resolved and active state reflect doc-a, not doc-b. -/
theorem superseded_request_counterexample :
    (supersededRun sampleEnv sampleEnv (paramsFor "doc-a") (paramsFor "doc-b")
        (.ok respA) (.ok respB) (.ok rev0) (.ok rev0) initialLoaderState).document =
      some docA
    ∧ (supersededRun sampleEnv sampleEnv (paramsFor "doc-a") (paramsFor "doc-b")
        (.ok respA) (.ok respB) (.ok rev0) (.ok rev0) initialLoaderState).document ≠
      some docB
    ∧ (supersededRun sampleEnv sampleEnv (paramsFor "doc-a") (paramsFor "doc-b")
        (.ok respA) (.ok respB) (.ok rev0) (.ok rev0) initialLoaderState).activeDocument =
      some docA := by
  exact ⟨rfl, by decide, rfl⟩

/-- C1 amended: the loader tracks no request identity, so the last
completed fetch wins: whenever the superseded first request's fetch
completes after the second's, the resolved document is the first request's
document, and, when its post-fetch steps run, so is the active document. -/
theorem superseded_request_last_write_wins (envA envB : Env) (pA pB : MatchParams)
    (firstResponse : FetchResponse) (secondFetch : Except Err FetchResponse)
    (firstRev secondRev : Except Err Revision) (s : LoaderState) :
    (supersededRun envA envB pA pB (.ok firstResponse) secondFetch
        firstRev secondRev s).document = some firstResponse.document
    ∧ (reachesPostFetch pA firstRev = true →
      (supersededRun envA envB pA pB (.ok firstResponse) secondFetch
          firstRev secondRev s).activeDocument = some firstResponse.document) := by
  constructor
  · exact loadDocumentCont_ok_document envA pA firstResponse firstRev _
  · intro h
    exact loadDocumentCont_ok_activeDocument envA pA firstResponse firstRev _ h

/-- C1 amended witness: the concrete superseding schedule ends with the
active document being the first request's document. -/
theorem superseded_request_last_write_wins_witness :
    (supersededRun sampleEnv sampleEnv (paramsFor "doc-a") (paramsFor "doc-b")
        (.ok respA) (.ok respB) (.ok rev0) (.ok rev0) initialLoaderState).activeDocument =
      some docA :=
  (superseded_request_last_write_wins sampleEnv sampleEnv (paramsFor "doc-a")
    (paramsFor "doc-b") respA (.ok respB) (.ok rev0) (.ok rev0)
    initialLoaderState).2 rfl

/-- C5 counterexample: an in-flight fetch whose view is unmounted before it
completes still writes the fetched document into state when it completes,
so its completion is not a no-op. -/
theorem unmount_noop_counterexample :
    (unmountView initialLoaderState).document = none
    ∧ (loadDocumentCont sampleEnv (paramsFor "doc-a") (.ok respA) (.ok rev0)
        (unmountView initialLoaderState)).document = some docA
    ∧ loadDocumentCont sampleEnv (paramsFor "doc-a") (.ok respA) (.ok rev0)
        (unmountView initialLoaderState) ≠ unmountView initialLoaderState := by
  exact ⟨rfl, rfl, by decide⟩

/-- C5 amended: the component installs no cancellation: the continuation of
an in-flight fetch runs identically on an unmounted instance, performing
the same state writes (in particular the document write on success) as
when mounted, rather than becoming a no-op. -/
theorem unmount_does_not_suppress_writes (env : Env) (p : MatchParams)
    (fetchResult : Except Err FetchResponse) (response : FetchResponse)
    (revisionFetch : Except Err Revision) (s : LoaderState) :
    loadDocumentCont env p fetchResult revisionFetch (unmountView s) =
      unmountView (loadDocumentCont env p fetchResult revisionFetch s)
    ∧ (loadDocumentCont env p (.ok response) revisionFetch
        (unmountView s)).document = some response.document := by
  constructor
  · cases fetchResult with
    | error e => rfl
    | ok resp =>
      simp only [loadDocumentCont]
      cases hw : wantsSpecificRevision p with
      | true =>
        simp only [if_true]
        cases revisionFetch with
        | error e => rfl
        | ok rev =>
          dsimp only
          rw [afterFetchSuccess_spec _ _ _ resp.document rfl,
            afterFetchSuccess_spec _ _ _ resp.document rfl]
          split_ifs <;> rfl
      | false =>
        simp only [Bool.false_eq_true, if_false]
        rw [afterFetchSuccess_spec _ _ _ resp.document rfl,
          afterFetchSuccess_spec _ _ _ resp.document rfl]
        split_ifs <;> rfl
  · exact loadDocumentCont_ok_document env p response revisionFetch _

end Outline
